import Mathlib

/-!
Shallow embedding of the `auto-patchelf` Rust program (crate under
`src/auto-patchelf`) and verification of its specification claims.

Modelling conventions:
* Rust `u8` / `u16` tags (OS-ABI, architecture) become `Nat`; only equality
  is used on them, so no wraparound modelling is needed.
* Paths (`Path` / `PathBuf`) become `String`; `Path::file_name`,
  `Path::is_absolute` and `Path::join` are modelled explicitly below.
* Filesystem queries (`is_file`) and the external `patchelf` invocation are
  inputs of the embedding (`Env`), since they are external effects.
* `std::collections::HashMap` iteration order is unspecified in Rust; the
  key-enumeration used by `HashMap::keys()` is therefore a parameter
  `σ : List String → List String`, constrained in theorems only by the
  guarantee Rust gives: it enumerates exactly the stored keys
  (a permutation of them).
-/

namespace AutoPatchelf

/-! ## ELF constants (values from the ELF specification, as in goblin) -/

def ELFOSABI_SYSV : Nat := 0
def ET_EXEC : Nat := 2
def PT_INTERP : Nat := 3

/-! ## elf.rs: `ElfFile` descriptor and predicates -/

/-- Embedding of the information `ElfFile` (elf.rs) exposes about a parsed
ELF file: architecture (`e_machine`), OS-ABI (`e_ident[EI_OSABI]`), file
type (`e_type`), the `p_type` of each program header, the runpath entries
(result of `get_rpath`, already colon-split), and the dependency
alternative-sets (result of `get_dependencies`). -/
structure ElfDesc where
  arch : Nat
  osabi : Nat
  etype : Nat
  progHeaderTypes : List Nat
  runpath : List String
  deps : List (List String)
deriving Repr, DecidableEq

/-- elf.rs `ElfFile::has_program_headers`:
`!self.elf.program_headers.is_empty()`. -/
def ElfDesc.has_program_headers (e : ElfDesc) : Bool :=
  !e.progHeaderTypes.isEmpty

/-- elf.rs `ElfFile::is_static_executable`: `e_type == ET_EXEC` and no
program header of type `PT_INTERP`. -/
def ElfDesc.is_static_executable (e : ElfDesc) : Bool :=
  e.etype == ET_EXEC && !(e.progHeaderTypes.any (fun t => t == PT_INTERP))

/-- elf.rs `ElfFile::is_dynamic_executable`: some program header has type
`PT_INTERP`. -/
def ElfDesc.is_dynamic_executable (e : ElfDesc) : Bool :=
  e.progHeaderTypes.any (fun t => t == PT_INTERP)

/-- elf.rs `osabi_are_compatible`: true when either tag is the generic
System V tag, otherwise exact equality. -/
def osabi_are_compatible (wanted got : Nat) : Bool :=
  if wanted == ELFOSABI_SYSV || got == ELFOSABI_SYSV then
    true
  else
    wanted == got

/-! ## Path helpers (std::path behaviour used by the program) -/

/-- Rust `Path::is_absolute` on Unix: the path starts with `/`. -/
def isAbsolute (p : String) : Bool :=
  match p.toList with
  | '/' :: _ => true
  | _ => false

/-- Split a character list on a separator (the semantics of
`str::split` for a one-character separator). -/
def splitOnChar (sep : Char) : List Char → List (List Char)
  | [] => [[]]
  | c :: cs =>
    match splitOnChar sep cs with
    | [] => [[]]
    | cur :: rest =>
      if c == sep then [] :: cur :: rest else (c :: cur) :: rest

/-- Rust `Path::file_name`: the final normal component of the path; `None`
when there is none or the path ends in `..`. -/
def fileName (p : String) : Option String :=
  let comps := ((splitOnChar '/' p.toList).map String.mk).filter
    (fun c => c ≠ "" && c ≠ ".")
  match comps.getLast? with
  | some c => if c = ".." then none else some c
  | none => none

/-- Rust `Path::join`: an absolute right operand replaces the left one. -/
def pathJoin (base p : String) : String :=
  if isAbsolute p then p else base ++ "/" ++ p

/-! ## cache.rs: the library cache -/

/-- The `soname_cache` field of `LibraryCache`:
`HashMap<(String, Arch), Vec<(PathBuf, OsAbi)>>`, modelled as an
association list from `(soname, arch)` keys to provider lists; each
provider is `(containing directory, OS-ABI)` and `push` appends, so list
order is discovery order. -/
abbrev SonameCache := List ((String × Nat) × List (String × Nat))

/-- cache.rs `LibraryCache::find_dependency`: look up `(soname, arch)`;
within the provider list return the directory of the first entry whose
OS-ABI is compatible with the requested one. -/
def find_dependency (cache : SonameCache) (soname : String) (soarch : Nat)
    (soabi : Nat) : Option String :=
  (List.lookup (soname, soarch) cache).bind fun libs =>
    (libs.find? (fun e => osabi_are_compatible soabi e.2)).map Prod.fst

/-! ## main.rs: the per-file resolver `auto_patchelf_file` -/

deriving instance DecidableEq for Except

/-- External effects visible to `auto_patchelf_file`: the filesystem
regular-file query (`Path::is_file`) and the exit status of the external
`patchelf --set-interpreter` invocation. -/
structure Env where
  isFile : String → Bool
  setInterpreterOk : Bool

/-- The fields of cli.rs `PatchConfig` that `auto_patchelf_file` and
`auto_patchelf` read. -/
structure PatchConfig where
  ignore_missing : List String
  runtime_dependencies : List String
  append_rpaths : List String
  keep_libc : Bool

/-- main.rs `Dependency`. -/
structure Dependency where
  file : String
  name : String
  found : Bool
deriving Repr, DecidableEq

/-- Result of the candidate loop (main.rs lines 131-188) for one
alternative-set: found without recording an outcome (absolute-path or
libc branches), found through the library cache (records an outcome and a
search-path contribution), or not found. -/
inductive CandidateResult where
  | foundPlain
  | foundInCache (name dir : String)
  | notFound
deriving Repr, DecidableEq

/-- The candidate loop of `auto_patchelf_file`: for each candidate,
(1) absolute existing path, (2) libc-resident and keep-libc off,
(3) cache lookup by basename when the candidate has one — a cache miss
moves on to the next candidate — and (4) the libc-with-keep-libc branch,
reached only when the candidate has no basename, because branch (3) is an
`else if let` on the basename. -/
def resolveCandidates (env : Env) (keep_libc : Bool) (cache : SonameCache)
    (arch osabi : Nat) (libcLib : String) : List String → CandidateResult
  | [] => .notFound
  | candidate :: rest =>
    let is_libc := env.isFile (pathJoin libcLib candidate)
    if isAbsolute candidate && env.isFile candidate then
      .foundPlain
    else if is_libc && !keep_libc then
      .foundPlain
    else
      match fileName candidate with
      | some candidate_name =>
        match find_dependency cache candidate_name arch osabi with
        | some found_dependency => .foundInCache candidate found_dependency
        | none => resolveCandidates env keep_libc cache arch osabi libcLib rest
      | none =>
        if is_libc && keep_libc then .foundPlain
        else resolveCandidates env keep_libc cache arch osabi libcLib rest

/-- main.rs lines 191-196: the label of an unresolved set is its sole
candidate, or a synthesized `any(...)` disjunction. -/
def depLabel : List String → String
  | [c] => c
  | cs => "any(" ++ String.intercalate ", " cs ++ ")"

/-- Accumulator of the dependency loop: outcome entries and search-path
contributions, in order. -/
structure ResolveAcc where
  deps : List Dependency
  rpath : List String
deriving Repr, DecidableEq

/-- One iteration of the dependency loop (main.rs lines 128-206). -/
def resolveStep (env : Env) (keep_libc : Bool) (cache : SonameCache)
    (arch osabi : Nat) (libcLib path : String) (acc : ResolveAcc)
    (dep : List String) : ResolveAcc :=
  match resolveCandidates env keep_libc cache arch osabi libcLib dep with
  | .foundPlain => acc
  | .foundInCache name dir =>
    { deps := acc.deps ++ [⟨path, name, true⟩], rpath := acc.rpath ++ [dir] }
  | .notFound =>
    { deps := acc.deps ++ [⟨path, depLabel dep, false⟩], rpath := acc.rpath }

/-- The outcome entries one alternative-set contributes (zero entries for
sets resolved by the absolute-path or libc branches, one otherwise). -/
def perSetDeps (env : Env) (keep_libc : Bool) (cache : SonameCache)
    (arch osabi : Nat) (libcLib path : String) (dep : List String) :
    List Dependency :=
  match resolveCandidates env keep_libc cache arch osabi libcLib dep with
  | .foundPlain => []
  | .foundInCache name _ => [⟨path, name, true⟩]
  | .notFound => [⟨path, depLabel dep, false⟩]

/-- The cache-discovered search-path directories of a list of
alternative-sets, in resolution order. -/
def discoveredDirs (env : Env) (keep_libc : Bool) (cache : SonameCache)
    (arch osabi : Nat) (libcLib : String) (sets : List (List String)) :
    List String :=
  (sets.map fun dep =>
    match resolveCandidates env keep_libc cache arch osabi libcLib dep with
    | .foundInCache _ dir => [dir]
    | _ => []).flatten

/-- main.rs lines 211-215: the `HashMap::entry(..).or_insert(..)` loop
keeps the first occurrence of every key; this computes the stored key set
in insertion order. The order in which `HashMap::keys()` later enumerates
them is unspecified and modelled by a separate parameter `σ`. -/
def insertUniqueKey (acc : List String) (x : String) : List String :=
  if x ∈ acc then acc else acc ++ [x]

/-- The distinct entries of a list, first occurrence kept, in insertion
order. -/
def dedupFirst (l : List String) : List String :=
  l.foldl insertUniqueKey []

/-- Observable outcome of `auto_patchelf_file`, one constructor per
control-flow exit of the source function (each exit prints a distinct
message or returns a distinct value). `patched` carries the returned
outcome entries and, when the deduplicated search path is non-empty, the
list handed to `patchelf --set-rpath`. -/
inductive PatchOutcome where
  | notElf
  | skippedStatic
  | skippedNoSegment
  | skippedArch
  | skippedOsabi
  | setInterpreterFailed
  | cacheFailed (msg : String)
  | patched (deps : List Dependency) (newRpath : Option (List String))
deriving Repr, DecidableEq

/-- Embedding of main.rs `auto_patchelf_file`. `σ` models the unspecified
iteration order of `HashMap::keys()` over the deduplicated search-path
entries; `cacheResult` models `SharedHandle::get_result`; `parsed` models
`ElfFile::new` on the file's bytes. -/
def autoPatchelfFile (σ : List String → List String) (env : Env)
    (args : PatchConfig) (path : String)
    (cacheResult : Except String SonameCache) (interp : ElfDesc)
    (libcLib : String) (parsed : Option ElfDesc) : PatchOutcome :=
  match parsed with
  | none => .notElf
  | some elf_file =>
    if elf_file.is_static_executable then .skippedStatic
    else if elf_file.has_program_headers then .skippedNoSegment
    else if interp.arch != elf_file.arch then .skippedArch
    else if !osabi_are_compatible interp.osabi elf_file.osabi then
      .skippedOsabi
    else
      let file_is_dynamic_executable := elf_file.is_dynamic_executable
      if file_is_dynamic_executable && !env.setInterpreterOk then
        .setInterpreterFailed
      else
        let rpath0 : List String :=
          if file_is_dynamic_executable then args.runtime_dependencies else []
        match cacheResult with
        | .error e => .cacheFailed e
        | .ok library_cache =>
          let acc := elf_file.deps.foldl
            (resolveStep env args.keep_libc library_cache elf_file.arch
              elf_file.osabi libcLib path)
            { deps := [], rpath := rpath0 }
          let rpath := acc.rpath ++ args.append_rpaths
          let deduped_rpath := σ (dedupFirst rpath)
          .patched acc.deps
            (if deduped_rpath.isEmpty then none else some deduped_rpath)

/-- The `Result<Vec<Dependency>>` the source function returns at each
exit: skips return `Ok(empty)`, interpreter/cache failures return `Err`,
full processing returns the accumulated outcome entries. -/
def PatchOutcome.result : PatchOutcome → Except String (List Dependency)
  | .notElf => .ok []
  | .skippedStatic => .ok []
  | .skippedNoSegment => .ok []
  | .skippedArch => .ok []
  | .skippedOsabi => .ok []
  | .setInterpreterFailed => .error "Failed to set interpreter"
  | .cacheFailed e => .error e
  | .patched deps _ => .ok deps

/-- Whether the outcome is one of the skip conditions (parse failure,
static executable, segment check, architecture or OS-ABI mismatch). -/
def PatchOutcome.isSkip : PatchOutcome → Bool
  | .notElf => true
  | .skippedStatic => true
  | .skippedNoSegment => true
  | .skippedArch => true
  | .skippedOsabi => true
  | _ => false

/-- The search-path list handed to `patchelf --set-rpath`, when any. -/
def PatchOutcome.rpathSet : PatchOutcome → Option (List String)
  | .patched _ r => r
  | _ => none

/-! ## cache.rs: library cache population -/

/-- What `populate_cache` observes about one globbed shared-object file:
its base name, the parent directory of its resolved path (cache.rs lines
50-53: `canonicalize` kept only when it preserves the base name), its
architecture and OS-ABI, its runpath entries, and whether it parses as
ELF. -/
structure LibFile where
  name : String
  resolvedDir : String
  arch : Nat
  osabi : Nat
  runpath : List String
  parseOk : Bool

/-- The filesystem as `populate_cache` sees it: for each directory, the
regular files its `*.so*` glob yields. -/
abbrev CacheFS := List (String × List LibFile)

/-- The glob result for one directory. -/
def globDir (fs : CacheFS) (d : String) : List LibFile :=
  (List.lookup d fs).getD []

/-- Whether `pat` is a leading block of `s` (character lists). -/
def charsLeading : List Char → List Char → Bool
  | [], _ => true
  | _ :: _, [] => false
  | p :: ps, c :: cs => p == c && charsLeading ps cs

/-- Whether `pat` occurs contiguously inside `s` (character lists). -/
def charsContain : List Char → List Char → Bool
  | s, pat =>
    match s with
    | [] => pat.isEmpty
    | _ :: cs => charsLeading pat s || charsContain cs pat

/-- Character-list substring test modelling Rust `str::contains`. -/
def strContains (s pat : String) : Bool :=
  charsContain s.toList pat.toList

/-- cache.rs lines 57-62: runpath entries kept for the scan queue —
non-empty and without the `$ORIGIN` placeholder. -/
def keptRunpath (lib : LibFile) : List String :=
  lib.runpath.filter (fun p => p ≠ "" && !strContains p "$ORIGIN")

/-- cache.rs lines 67-73: `soname_cache.entry(key).or_default().push(..)`
— append the provider to the key's list, creating it if absent. -/
def cacheInsert (c : SonameCache) (key : String × Nat)
    (v : String × Nat) : SonameCache :=
  if (List.lookup key c).isSome then
    c.map (fun kv => if kv.1 == key then (kv.1, kv.2 ++ [v]) else kv)
  else
    c ++ [(key, [v])]

/-- The mutable state of `LibraryCache` during population: the visited
set `cached_paths` (most recently visited first) and the soname index. -/
structure CacheState where
  cached_paths : List String
  soname_cache : SonameCache

/-- Processing of one globbed file inside the directory loop (cache.rs
lines 44-75): a parse failure is skipped silently; otherwise the kept
runpath entries are appended to the directory queue and the library is
recorded in the soname index. -/
def scanLib (acc : CacheState × List String) (lib : LibFile) :
    CacheState × List String :=
  if lib.parseOk then
    (⟨acc.1.cached_paths,
        cacheInsert acc.1.soname_cache (lib.name, lib.arch)
          (lib.resolvedDir, lib.osabi)⟩,
      acc.2 ++ keptRunpath lib)
  else acc

/-- cache.rs `LibraryCache::populate_cache`, fuelled: pop the first
queued directory, skip it when already visited, otherwise mark it
visited and scan its glob results, enqueueing the runpath directories
they name. `none` means the fuel ran out before the queue drained. -/
def populateGo (fs : CacheFS) : Nat → List String → CacheState →
    Option CacheState
  | 0, _, _ => none
  | _ + 1, [], st => some st
  | fuel + 1, lib_dir :: rest, st =>
    if lib_dir ∈ st.cached_paths then populateGo fs fuel rest st
    else
      let step := (globDir fs lib_dir).foldl scanLib
        (⟨lib_dir :: st.cached_paths, st.soname_cache⟩, rest)
      populateGo fs fuel step.2 step.1

/-! ## state.rs: the incremental state store -/

/-- The `cache` field of `DirState`: `HashMap<PathBuf, i64>`, modelled as
an association list from root-relative path to modification time. -/
abbrev StateCache := List (String × Int)

/-- state.rs `DirState::up_to_date`:
`self.cache.get(path).is_some_and(|&entry| mtime == entry)`. -/
def up_to_date (cache : StateCache) (path : String) (mtime : Int) : Bool :=
  match List.lookup path cache with
  | some entry => mtime == entry
  | none => false

/-- state.rs `DirState::update`: insert-or-overwrite the path's recorded
time (`entry(path).and_modify(..).or_insert(mtime)`). -/
def updateState (cache : StateCache) (path : String) (mtime : Int) :
    StateCache :=
  if (List.lookup path cache).isSome then
    cache.map (fun kv => if kv.1 == path then (kv.1, mtime) else kv)
  else
    cache ++ [(path, mtime)]

/-- state.rs `DirState::VERSION`. -/
def STATE_VERSION : Nat := 1

/-- Little-endian fixed-width bytes of a `u32` (bincode fixint). -/
def u32LE (n : Nat) : List Nat :=
  [n % 256, n / 256 % 256, n / 256 ^ 2 % 256, n / 256 ^ 3 % 256]

/-- Little-endian fixed-width bytes of a `u64` (bincode fixint). -/
def u64LE (n : Nat) : List Nat :=
  [n % 256, n / 256 % 256, n / 256 ^ 2 % 256, n / 256 ^ 3 % 256,
    n / 256 ^ 4 % 256, n / 256 ^ 5 % 256, n / 256 ^ 6 % 256,
    n / 256 ^ 7 % 256]

/-- Little-endian two's-complement bytes of an `i64` (bincode fixint). -/
def i64LE (n : Int) : List Nat :=
  u64LE (n.emod (2 ^ 64)).toNat

/-- bincode encoding of a path string: `u64` byte length then the bytes
(paths are modelled as their character codes; the tested inputs are
ASCII). -/
def encodeString (s : String) : List Nat :=
  u64LE s.length ++ s.toList.map Char.toNat

/-- bincode encoding of one map entry. -/
def encodeEntry (kv : String × Int) : List Nat :=
  encodeString kv.1 ++ i64LE kv.2

/-- state.rs `DirState::serialize`: the version tag followed by the
bincode encoding of the map (`u64` entry count, then the entries). -/
def serializeState (cache : StateCache) : List Nat :=
  u32LE STATE_VERSION ++ u64LE cache.length ++
    (cache.map encodeEntry).flatten

/-- Decode a little-endian `u32` from the front of a byte list. -/
def decodeU32 : List Nat → Option (Nat × List Nat)
  | b0 :: b1 :: b2 :: b3 :: rest =>
    some (b0 + 256 * b1 + 256 ^ 2 * b2 + 256 ^ 3 * b3, rest)
  | _ => none

/-- Decode a little-endian `u64` from the front of a byte list. -/
def decodeU64 : List Nat → Option (Nat × List Nat)
  | b0 :: b1 :: b2 :: b3 :: b4 :: b5 :: b6 :: b7 :: rest =>
    some (b0 + 256 * b1 + 256 ^ 2 * b2 + 256 ^ 3 * b3 + 256 ^ 4 * b4 +
      256 ^ 5 * b5 + 256 ^ 6 * b6 + 256 ^ 7 * b7, rest)
  | _ => none

/-- Decode a little-endian two's-complement `i64`. -/
def decodeI64 (bytes : List Nat) : Option (Int × List Nat) :=
  (decodeU64 bytes).map fun p =>
    (if p.1 < 2 ^ 63 then (p.1 : Int) else (p.1 : Int) - 2 ^ 64, p.2)

/-- Split off `k` leading bytes, failing when fewer are available. -/
def readBytes (k : Nat) (bytes : List Nat) :
    Option (List Nat × List Nat) :=
  if bytes.length < k then none else some (bytes.take k, bytes.drop k)

/-- Decode a bincode string. -/
def decodeString (bytes : List Nat) : Option (String × List Nat) :=
  (decodeU64 bytes).bind fun p =>
    (readBytes p.1 p.2).map fun q =>
      (String.mk (q.1.map Char.ofNat), q.2)

/-- Decode `k` map entries. -/
def decodeEntries : Nat → List Nat → Option (StateCache × List Nat)
  | 0, bytes => some ([], bytes)
  | k + 1, bytes =>
    (decodeString bytes).bind fun s =>
      (decodeI64 s.2).bind fun v =>
        (decodeEntries k v.2).map fun m => ((s.1, v.1) :: m.1, m.2)

/-- state.rs `DirState::deserialize_cache`: read the fixed-width version
tag, reject a mismatch, then decode the map. -/
def deserializeCache (bytes : List Nat) : Option StateCache :=
  (decodeU32 bytes).bind fun p =>
    if p.1 ≠ STATE_VERSION then none
    else
      (decodeU64 p.2).bind fun q =>
        (decodeEntries q.1 q.2).map Prod.fst

/-! ## main.rs: the per-file walk step and run aggregation -/

/-- What the file walk (main.rs lines 268-306) observes about one file:
the full path, the root-relative path used as state key, the pre-filter
facts, the modification times before and after processing, and the parse
result of its bytes. -/
structure WalkFile where
  path : String
  cachePath : String
  isSymlink : Bool
  isRegularFile : Bool
  magic : List Nat
  mtime : Int
  mtimeAfter : Int
  parsed : Option ElfDesc

/-- How the walk disposed of one file. -/
inductive WalkResult where
  | filtered
  | upToDate
  | processedOk (deps : List Dependency)
  | processedErr (msg : String)
deriving Repr, DecidableEq

/-- Embedding of the per-file body of `auto_patchelf` (main.rs lines
272-305): symlink/regular filter, ELF magic probe, incremental-state
lookup, then `auto_patchelf_file`; on success the re-read modification
time is recorded, on error the state is left untouched. -/
def processFile (σ : List String → List String) (env : Env)
    (args : PatchConfig) (cacheResult : Except String SonameCache)
    (interp : ElfDesc) (libcLib : String) (state : StateCache)
    (f : WalkFile) : StateCache × WalkResult :=
  if f.isSymlink || !f.isRegularFile then (state, .filtered)
  else if f.magic ≠ [0x7f, 0x45, 0x4c, 0x46] then (state, .filtered)
  else if up_to_date state f.cachePath f.mtime then (state, .upToDate)
  else
    match (autoPatchelfFile σ env args f.path cacheResult interp libcLib
        f.parsed).result with
    | .ok deps =>
      (updateState state f.cachePath f.mtimeAfter, .processedOk deps)
    | .error e => (state, .processedErr e)

/-- main.rs lines 322-339: a missing dependency is downgraded to a
warning when its reported name has a basename matched by some ignore
pattern. `globMatch` models `glob::Pattern::new(p).map(|p| p.matches(n))
.unwrap_or(false)` (so an unparsable pattern matches nothing). -/
def ignoredByPatterns (globMatch : String → String → Bool)
    (patterns : List String) (name : String) : Bool :=
  match fileName name with
  | some n => patterns.any (fun p => globMatch p n)
  | none => false

/-- main.rs lines 296-305: per-file errors are logged and contribute no
outcome entries; successful files contribute theirs. -/
def collectOk (results : List (Except String (List Dependency))) :
    List Dependency :=
  (results.map fun r =>
    match r with
    | .ok deps => deps
    | .error _ => []).flatten

/-- main.rs lines 312-349: the run fails when some missing dependency is
not downgraded by an ignore pattern. -/
def runFailure (globMatch : String → String → Bool)
    (patterns : List String) (allDeps : List Dependency) : Bool :=
  (allDeps.filter (fun d => !d.found)).any
    (fun d => !ignoredByPatterns globMatch patterns d.name)

/-- main.rs lines 351-359: the run outcome computed from the aggregated
per-file results. -/
def runOutcome (globMatch : String → String → Bool)
    (patterns : List String)
    (results : List (Except String (List Dependency))) :
    Except String Unit :=
  if runFailure globMatch patterns (collectOk results) then
    .error "auto-patchelf failed to find all the required dependencies."
  else
    .ok ()

end AutoPatchelf

namespace AutoPatchelf

/-! ## Claim C6: algebraic properties of `osabi_are_compatible` -/

/-- **C6**: OS-ABI compatibility is reflexive and symmetric, returns true
whenever either argument is the generic System-V tag, and on two
non-generic tags returns true exactly when they are equal. -/
theorem osabi_compatible_props (a b : Nat) :
    osabi_are_compatible a a = true ∧
    osabi_are_compatible a b = osabi_are_compatible b a ∧
    ((a = ELFOSABI_SYSV ∨ b = ELFOSABI_SYSV) → osabi_are_compatible a b = true) ∧
    (a ≠ ELFOSABI_SYSV → b ≠ ELFOSABI_SYSV →
      (osabi_are_compatible a b = true ↔ a = b)) := by
  refine ⟨?_, ?_, ?_, ?_⟩
  · simp [osabi_are_compatible]
  · simp only [osabi_are_compatible, Bool.or_comm]
    by_cases hab : a = b
    · subst hab; rfl
    · simp [beq_eq_decide, hab, Ne.symm hab]
  · intro h
    rcases h with h | h <;> simp [osabi_are_compatible, h]
  · intro ha hb
    simp [osabi_are_compatible, ha, hb]

/-- Witness for C6 at concrete tags, discharging the hypotheses of the
conditional conjuncts. -/
theorem osabi_compatible_props_witness :
    (3 ≠ ELFOSABI_SYSV ∧ 5 ≠ ELFOSABI_SYSV ∧
      (osabi_are_compatible 3 5 = true ↔ (3 : Nat) = 5)) ∧
    osabi_are_compatible 0 7 = true :=
  ⟨⟨by decide, by decide,
      (osabi_compatible_props 3 5).2.2.2 (by decide) (by decide)⟩,
    (osabi_compatible_props 0 7).2.2.1 (Or.inl (by decide))⟩

/-! ## Claim C8: `find_dependency` lookup semantics -/

/-- **C8**: `find_dependency` on a key with no recorded entry returns
none; when the key has recorded providers it returns none exactly when
no provider's OS-ABI is compatible, and otherwise returns a result —
specifically the directory of the earliest-recorded compatible provider
(stated in both directions: any position that is compatible and preceded
only by incompatible providers is the one returned, and any returned
directory comes from such a position). -/
theorem find_dependency_spec (cache : SonameCache) (soname : String)
    (soarch soabi : Nat) :
    (List.lookup (soname, soarch) cache = none →
      find_dependency cache soname soarch soabi = none) ∧
    (∀ libs, List.lookup (soname, soarch) cache = some libs →
      ((∀ e ∈ libs, osabi_are_compatible soabi e.2 = false) →
        find_dependency cache soname soarch soabi = none) ∧
      ((∃ e ∈ libs, osabi_are_compatible soabi e.2 = true) →
        ∃ d, find_dependency cache soname soarch soabi = some d) ∧
      (∀ i : Fin libs.length,
        osabi_are_compatible soabi (libs.get i).2 = true →
        (∀ j : Fin libs.length, (j : Nat) < (i : Nat) →
          osabi_are_compatible soabi (libs.get j).2 = false) →
        find_dependency cache soname soarch soabi =
          some (libs.get i).1) ∧
      (∀ d, find_dependency cache soname soarch soabi = some d →
        ∃ i : Fin libs.length,
          (libs.get i).1 = d ∧
          osabi_are_compatible soabi (libs.get i).2 = true ∧
          ∀ j : Fin libs.length, (j : Nat) < (i : Nat) →
            osabi_are_compatible soabi (libs.get j).2 = false)) := by
  constructor
  · intro h
    simp [find_dependency, h]
  · intro libs hlibs
    refine ⟨?_, ?_, ?_, ?_⟩
    · intro hnone
      simp only [find_dependency, hlibs, Option.some_bind]
      rw [List.find?_eq_none.mpr]
      · rfl
      · intro e he
        simp [hnone e he]
    · rintro ⟨e, he, hc⟩
      simp only [find_dependency, hlibs, Option.some_bind]
      have hs : (libs.find?
          (fun e => osabi_are_compatible soabi e.2)).isSome := by
        rw [List.find?_isSome]
        exact ⟨e, he, hc⟩
      obtain ⟨x, hx⟩ := Option.isSome_iff_exists.mp hs
      exact ⟨x.1, by rw [hx]; rfl⟩
    · intro i hci hbef
      simp only [find_dependency, hlibs, Option.some_bind]
      have hfind : libs.find?
          (fun e => osabi_are_compatible soabi e.2) =
          some (libs.get i) := by
        rw [List.find?_eq_some_iff_getElem]
        refine ⟨?_, i.1, i.2, ?_, ?_⟩
        · simpa [List.get_eq_getElem] using hci
        · simp [List.get_eq_getElem]
        · intro j hj
          have hjlen : j < libs.length := Nat.lt_trans hj i.2
          have hje := hbef ⟨j, hjlen⟩ hj
          simp only [List.get_eq_getElem] at hje
          simp [hje]
      rw [hfind]
      rfl
    · intro d hd
      simp only [find_dependency, hlibs, Option.some_bind] at hd
      rcases Option.map_eq_some'.mp hd with ⟨e, he, hed⟩
      rcases List.find?_eq_some_iff_getElem.mp he with
        ⟨hpe, i, hi, hgete, hbefore⟩
      refine ⟨⟨i, hi⟩, ?_, ?_, ?_⟩
      · simpa [List.get_eq_getElem, hgete] using hed
      · simpa [List.get_eq_getElem, hgete] using hpe
      · intro j hj
        have := hbefore (j : Nat) hj
        simpa [List.get_eq_getElem] using this

/-! ## Claim C1: the segment-check skip (code bug)

main.rs line 69 reads `if elf_file.has_program_headers()` and skips with
the message "contains no segment", but `has_program_headers` (elf.rs
lines 34-36) is true exactly when the program-header table is NON-empty.
The code therefore skips every file that has program headers and lets
files with an empty program-header table proceed to the architecture
check — the opposite of the claim and of the message it prints. -/

/-- **C1 (divergence)**: a shared object with one `PT_LOAD` program
header is skipped by the segment check, while a file with an empty
program-header table proceeds past it (here reaching the architecture
check and being skipped there instead). The claim states the reverse. -/
theorem segment_check_inverted :
    autoPatchelfFile id ⟨fun _ => false, true⟩ ⟨[], [], [], false⟩
        "/out/a.so" (.ok []) ⟨62, 0, 2, [3], [], []⟩ "/libc"
        (some ⟨62, 0, 3, [1], [], []⟩) = .skippedNoSegment ∧
    autoPatchelfFile id ⟨fun _ => false, true⟩ ⟨[], [], [], false⟩
        "/out/b.so" (.ok []) ⟨62, 0, 2, [3], [], []⟩ "/libc"
        (some ⟨40, 0, 3, [], [], []⟩) = .skippedArch := by
  decide

/-! ## Claim C2: libc fallback under keep-libc (code bug)

The candidate loop's comment (main.rs lines 145-148) promises that when
all other rules fail, a libc-resident dependency is still considered
found (step 4). But step 4 is the final `else if` of a chain whose third
branch is `else if let Some(candidate_name) = candidate.file_name()`:
whenever the candidate has a basename — always, for a soname — the chain
ends inside branch 3 on a cache miss, and branch 4 is unreachable. -/

/-- **C2 (divergence)**: with keep-libc enabled, a relative candidate
`libm.so.6` that exists under the libc directory but has no cache entry
is reported `found: false`, contradicting the claim (and the code's own
step-4 comment) that libc-resident dependencies are never reported
missing. -/
theorem keep_libc_fallback_unreachable :
    autoPatchelfFile id ⟨fun p => p == "/libc/libm.so.6", true⟩
        ⟨[], [], [], true⟩ "/out/app" (.ok []) ⟨62, 0, 2, [3], [], []⟩
        "/libc" (some ⟨62, 0, 3, [], [], [["libm.so.6"]]⟩) =
      .patched [⟨"/out/app", "libm.so.6", false⟩] none := by
  decide

/-! ## Claim C4: outcome entries per alternative-set -/

/-- **C4 (counterexample)**: a file with exactly one dependency
alternative-set, resolved by the absolute-path rule, returns an empty
outcome list — not one `found = true` entry per resolving set as the
claim states. -/
theorem claim_c4_counterexample :
    (autoPatchelfFile id ⟨fun p => p == "/abs/libz.so", true⟩
        ⟨[], [], [], false⟩ "/out/app" (.ok []) ⟨62, 0, 2, [3], [], []⟩
        "/libc" (some ⟨62, 0, 3, [], [], [["/abs/libz.so"]]⟩)).result =
      .ok [] ∧
    ([["/abs/libz.so"]] : List (List String)).length = 1 := by
  decide

/-- The dependency loop, characterized: outcome entries and search-path
contributions are the per-set entries and discovered directories,
appended to the accumulator. -/
theorem foldl_resolveStep (env : Env) (kl : Bool) (cache : SonameCache)
    (arch osabi : Nat) (libcLib path : String) :
    ∀ (sets : List (List String)) (acc : ResolveAcc),
      sets.foldl (resolveStep env kl cache arch osabi libcLib path) acc =
        ⟨acc.deps ++
            (sets.map (perSetDeps env kl cache arch osabi libcLib path)).flatten,
          acc.rpath ++ discoveredDirs env kl cache arch osabi libcLib sets⟩
  | [], acc => by simp [discoveredDirs]
  | dep :: sets, acc => by
    rw [List.foldl_cons, foldl_resolveStep env kl cache arch osabi libcLib
      path sets]
    simp only [resolveStep, perSetDeps, discoveredDirs, List.map_cons,
      List.flatten_cons]
    cases resolveCandidates env kl cache arch osabi libcLib dep <;>
      simp

/-- **C4 (amended)**: the outcome list contains, in set order, one
`found = true` entry per set resolved through the cache, no entry for
sets resolved by the absolute-path or libc rules, and one `found = false`
entry (labelled by the sole candidate or a synthesized `any(...)`
disjunction) per unresolved set. -/
theorem patched_deps_characterization (σ : List String → List String)
    (env : Env) (args : PatchConfig) (path : String) (cache : SonameCache)
    (interp : ElfDesc) (libcLib : String) (elf : ElfDesc)
    (deps : List Dependency) (r : Option (List String))
    (h : autoPatchelfFile σ env args path (.ok cache) interp libcLib
      (some elf) = .patched deps r) :
    deps = (elf.deps.map
      (perSetDeps env args.keep_libc cache elf.arch elf.osabi libcLib
        path)).flatten := by
  simp only [autoPatchelfFile] at h
  split at h
  · exact absurd h (by simp)
  · split at h
    · exact absurd h (by simp)
    · split at h
      · exact absurd h (by simp)
      · split at h
        · exact absurd h (by simp)
        · split at h
          · exact absurd h (by simp)
          · rw [foldl_resolveStep] at h
            simp only [PatchOutcome.patched.injEq] at h
            simpa using h.1.symm

/-- Witness for C4's amended theorem: a file whose three sets resolve by
the absolute-path rule, the cache rule, and not at all, yields exactly
the cache-found and not-found entries. -/
theorem patched_deps_characterization_witness :
    autoPatchelfFile id ⟨fun p => p == "/abs/libz.so", true⟩
        ⟨[], [], [], false⟩ "/out/app"
        (.ok [(("libfoo.so", 62), [("/d1", 0)])]) ⟨62, 0, 2, [3], [], []⟩
        "/libc"
        (some ⟨62, 0, 3, [], [],
          [["/abs/libz.so"], ["libfoo.so"], ["libbar.so"]]⟩) =
      .patched [⟨"/out/app", "libfoo.so", true⟩,
        ⟨"/out/app", "libbar.so", false⟩] (some ["/d1"]) ∧
    [⟨"/out/app", "libfoo.so", true⟩,
        (⟨"/out/app", "libbar.so", false⟩ : Dependency)] =
      (([["/abs/libz.so"], ["libfoo.so"], ["libbar.so"]] :
          List (List String)).map
        (perSetDeps ⟨fun p => p == "/abs/libz.so", true⟩ false
          [(("libfoo.so", 62), [("/d1", 0)])] 62 0 "/libc"
          "/out/app")).flatten :=
  ⟨by decide,
    patched_deps_characterization id ⟨fun p => p == "/abs/libz.so", true⟩
      ⟨[], [], [], false⟩ "/out/app" [(("libfoo.so", 62), [("/d1", 0)])]
      ⟨62, 0, 2, [3], [], []⟩ "/libc"
      ⟨62, 0, 3, [], [], [["/abs/libz.so"], ["libfoo.so"], ["libbar.so"]]⟩
      [⟨"/out/app", "libfoo.so", true⟩, ⟨"/out/app", "libbar.so", false⟩]
      (some ["/d1"]) (by decide)⟩

/-! ## Claim C3: composition and deduplication of the search path

main.rs lines 211-217 deduplicate through a `std::collections::HashMap`
and then collect `unique_paths.keys()`. The map's content is exactly the
first occurrence of each entry, but `keys()` enumerates in an unspecified
hash-dependent order (the `--runtime-dependencies` help text in cli.rs
itself says the deduplication "may imply some reordering"), so the
first-occurrence relative order the claim demands is not preserved. -/

/-- Membership in the first-occurrence deduplication fold. -/
theorem mem_foldl_insertUniqueKey (l : List String) :
    ∀ (acc : List String) (x : String),
      x ∈ l.foldl insertUniqueKey acc ↔ x ∈ acc ∨ x ∈ l := by
  induction l with
  | nil => simp
  | cons a l ih =>
    intro acc x
    rw [List.foldl_cons, ih]
    simp only [insertUniqueKey]
    split
    · rename_i ha
      simp only [List.mem_cons]
      constructor
      · rintro (hx | hx)
        · exact Or.inl hx
        · exact Or.inr (Or.inr hx)
      · rintro (hx | hx | hx)
        · exact Or.inl hx
        · exact Or.inl (hx ▸ ha)
        · exact Or.inr hx
    · simp only [List.mem_append, List.mem_singleton, List.mem_cons]
      tauto

/-- The first-occurrence deduplication fold preserves `Nodup`. -/
theorem nodup_foldl_insertUniqueKey (l : List String) :
    ∀ acc : List String, acc.Nodup →
      (l.foldl insertUniqueKey acc).Nodup := by
  induction l with
  | nil => intro acc h; simpa using h
  | cons a l ih =>
    intro acc h
    rw [List.foldl_cons]
    apply ih
    simp only [insertUniqueKey]
    split
    · exact h
    · rename_i ha
      simp [List.nodup_append, h, ha]

/-- `dedupFirst` keeps exactly the elements of its input. -/
theorem mem_dedupFirst (l : List String) (x : String) :
    x ∈ dedupFirst l ↔ x ∈ l := by
  rw [dedupFirst, mem_foldl_insertUniqueKey]
  simp

/-- `dedupFirst` has no duplicates. -/
theorem dedupFirst_nodup (l : List String) : (dedupFirst l).Nodup :=
  nodup_foldl_insertUniqueKey l [] List.nodup_nil

/-- **C3 (counterexample)**: with dependencies discovering the
directories `/d1, /d2, /d1` and append list `/d3`, it is not the case
that every admissible `HashMap::keys()` enumeration (any permutation of
the stored keys) yields the first-occurrence order `[/d1, /d2, /d3]`:
the reversed enumeration is admissible and yields a different list. -/
theorem claim_c3_counterexample :
    ¬ (∀ σ : List String → List String, (∀ l, (σ l).Perm l) →
      (autoPatchelfFile σ ⟨fun _ => false, true⟩ ⟨[], [], ["/d3"], false⟩
          "/out/app"
          (.ok [(("a.so", 62), [("/d1", 0)]), (("b.so", 62), [("/d2", 0)]),
            (("c.so", 62), [("/d1", 0)])])
          ⟨62, 0, 2, [3], [], []⟩ "/libc"
          (some ⟨62, 0, 3, [], [], [["a.so"], ["b.so"], ["c.so"]]⟩)).rpathSet =
        some ["/d1", "/d2", "/d3"]) := by
  intro h
  exact absurd (h List.reverse (fun l => l.reverse_perm)) (by decide)

/-- **C3 (amended)**: for every admissible key enumeration, the list
passed to the rpath rewrite on a processed file consists of exactly the
distinct directories of: the caller's prepend directories (contributed
when the file is a dynamic executable), then the per-dependency
directories discovered via the cache in resolution order, then the
caller's append directories — each exactly once, in an unspecified
order; when that set is empty no rewrite list is produced. -/
theorem rpath_composition_amended
    (σ : List String → List String) (hσ : ∀ l, (σ l).Perm l)
    (env : Env) (args : PatchConfig) (path : String) (cache : SonameCache)
    (interp : ElfDesc) (libcLib : String) (elf : ElfDesc)
    (deps : List Dependency) (r : Option (List String))
    (h : autoPatchelfFile σ env args path (.ok cache) interp libcLib
      (some elf) = .patched deps r) :
    (r = none →
      dedupFirst
        ((if elf.is_dynamic_executable then args.runtime_dependencies
            else []) ++
          discoveredDirs env args.keep_libc cache elf.arch elf.osabi
            libcLib elf.deps ++
          args.append_rpaths) = []) ∧
    (∀ l, r = some l → l.Nodup ∧ ∀ x, (x ∈ l ↔ x ∈
      (if elf.is_dynamic_executable then args.runtime_dependencies
          else []) ++
        discoveredDirs env args.keep_libc cache elf.arch elf.osabi
          libcLib elf.deps ++
        args.append_rpaths)) := by
  simp only [autoPatchelfFile] at h
  split at h
  · exact absurd h (by simp)
  · split at h
    · exact absurd h (by simp)
    · split at h
      · exact absurd h (by simp)
      · split at h
        · exact absurd h (by simp)
        · split at h
          · exact absurd h (by simp)
          · rw [foldl_resolveStep] at h
            simp only [PatchOutcome.patched.injEq] at h
            obtain ⟨-, hr⟩ := h
            set D := dedupFirst
              ((if elf.is_dynamic_executable then
                  args.runtime_dependencies else []) ++
                discoveredDirs env args.keep_libc cache elf.arch
                  elf.osabi libcLib elf.deps ++
                args.append_rpaths) with hD
            constructor
            · intro hnone
              rw [hnone] at hr
              by_cases hemp : (σ D).isEmpty = true
              · have hperm := hσ D
                rw [List.isEmpty_iff.mp hemp] at hperm
                exact hperm.symm.eq_nil
              · rw [if_neg hemp] at hr
                exact absurd hr (by simp)
            · intro l hl
              rw [hl] at hr
              by_cases hemp : (σ D).isEmpty = true
              · rw [if_pos hemp] at hr
                exact absurd hr (by simp)
              · rw [if_neg hemp] at hr
                have hlσ : σ D = l := Option.some.inj hr
                rw [← hlσ]
                refine ⟨((hσ D).nodup_iff).mpr ?_, ?_⟩
                · rw [hD]
                  exact dedupFirst_nodup _
                · intro x
                  rw [(hσ D).mem_iff, hD, mem_dedupFirst]

/-- Witness for C3's amended theorem at the counterexample's input with
the identity enumeration. -/
theorem rpath_composition_amended_witness :
    autoPatchelfFile id ⟨fun _ => false, true⟩ ⟨[], [], ["/d3"], false⟩
        "/out/app"
        (.ok [(("a.so", 62), [("/d1", 0)]), (("b.so", 62), [("/d2", 0)]),
          (("c.so", 62), [("/d1", 0)])])
        ⟨62, 0, 2, [3], [], []⟩ "/libc"
        (some ⟨62, 0, 3, [], [], [["a.so"], ["b.so"], ["c.so"]]⟩) =
      .patched [⟨"/out/app", "a.so", true⟩, ⟨"/out/app", "b.so", true⟩,
        ⟨"/out/app", "c.so", true⟩] (some ["/d1", "/d2", "/d3"]) ∧
    (∀ l, (some ["/d1", "/d2", "/d3"] : Option (List String)) = some l →
      l.Nodup ∧ ∀ x, (x ∈ l ↔ x ∈
        (if (⟨62, 0, 3, [], [],
            [["a.so"], ["b.so"], ["c.so"]]⟩ : ElfDesc).is_dynamic_executable
            then ([] : List String) else []) ++
          discoveredDirs ⟨fun _ => false, true⟩ false
            [(("a.so", 62), [("/d1", 0)]), (("b.so", 62), [("/d2", 0)]),
              (("c.so", 62), [("/d1", 0)])] 62 0 "/libc"
            [["a.so"], ["b.so"], ["c.so"]] ++
          (["/d3"] : List String))) :=
  ⟨by decide,
    (rpath_composition_amended id (fun l => List.Perm.refl l)
      ⟨fun _ => false, true⟩ ⟨[], [], ["/d3"], false⟩ "/out/app"
      [(("a.so", 62), [("/d1", 0)]), (("b.so", 62), [("/d2", 0)]),
        (("c.so", 62), [("/d1", 0)])]
      ⟨62, 0, 2, [3], [], []⟩ "/libc"
      ⟨62, 0, 3, [], [], [["a.so"], ["b.so"], ["c.so"]]⟩
      [⟨"/out/app", "a.so", true⟩, ⟨"/out/app", "b.so", true⟩,
        ⟨"/out/app", "c.so", true⟩]
      (some ["/d1", "/d2", "/d3"]) (by decide)).2⟩

/-! ## Claim C5: run failure iff an unmatched missing dependency -/

/-- Per-file errors contribute no outcome entries. -/
theorem collectOk_map_error (msgs : List String) :
    collectOk (msgs.map Except.error) = [] := by
  induction msgs with
  | nil => rfl
  | cons m ms _ => simp [collectOk]

/-- **C5**: the run returns failure iff some collected dependency is
missing and its reported name is matched by none of the ignore patterns;
per-file resolver errors contribute nothing and alone never fail the
run. -/
theorem run_fails_iff_unmatched_missing (gm : String → String → Bool)
    (patterns : List String)
    (results : List (Except String (List Dependency))) :
    ((∃ msg, runOutcome gm patterns results = .error msg) ↔
      ∃ d ∈ collectOk results, d.found = false ∧
        ignoredByPatterns gm patterns d.name = false) ∧
    (∀ msgs : List String,
      runOutcome gm patterns (msgs.map Except.error) = .ok ()) := by
  constructor
  · rw [runOutcome]
    by_cases hf : runFailure gm patterns (collectOk results) = true
    · rw [if_pos hf]
      constructor
      · intro _
        rw [runFailure, List.any_eq_true] at hf
        obtain ⟨d, hd, hig⟩ := hf
        rw [List.mem_filter] at hd
        exact ⟨d, hd.1, by simpa using hd.2, by simpa using hig⟩
      · intro _
        exact ⟨_, rfl⟩
    · rw [if_neg hf]
      constructor
      · rintro ⟨msg, hmsg⟩
        exact absurd hmsg (by simp)
      · rintro ⟨d, hd, hfound, hig⟩
        exfalso
        apply hf
        rw [runFailure, List.any_eq_true]
        exact ⟨d, List.mem_filter.mpr ⟨hd, by simp [hfound]⟩,
          by simp [hig]⟩
  · intro msgs
    rw [runOutcome, collectOk_map_error]
    rfl

/-- Witness for C5: a run whose only per-file results are resolver
errors succeeds, and a run with an ignored missing `libssl.so.3`
(pattern matching it) produces no failure either. -/
theorem run_fails_iff_unmatched_missing_witness :
    runOutcome (fun p n => p == "libssl*" && n == "libssl.so.3")
        ["libssl*"] (["could not patch"].map Except.error) = .ok () ∧
    runOutcome (fun p n => p == "libssl*" && n == "libssl.so.3")
        ["libssl*"] [.ok [⟨"/out/app", "libssl.so.3", false⟩]] =
      .ok () :=
  ⟨(run_fails_iff_unmatched_missing
      (fun p n => p == "libssl*" && n == "libssl.so.3") ["libssl*"]
      (["could not patch"].map Except.error)).2 ["could not patch"],
    by decide⟩

/-! ## Claim C9: incremental-state query and round-trip -/

/-- **C9**: `up_to_date` is true iff the mapping records exactly the
queried time for the path, and this holds across a serialize-then-parse
round-trip of the mapping `{"/a/lib.so": 100}`: up-to-date at time 100,
not at 101, and not for any other path. -/
theorem up_to_date_roundtrip :
    (∀ (cache : StateCache) (path : String) (t : Int),
      up_to_date cache path t = true ↔
        List.lookup path cache = some t) ∧
    deserializeCache (serializeState [("/a/lib.so", 100)]) =
      some [("/a/lib.so", 100)] ∧
    up_to_date [("/a/lib.so", 100)] "/a/lib.so" 100 = true ∧
    up_to_date [("/a/lib.so", 100)] "/a/lib.so" 101 = false ∧
    (∀ q : String, q ≠ "/a/lib.so" →
      up_to_date [("/a/lib.so", 100)] q 100 = false) := by
  refine ⟨?_, by decide, by decide, by decide, ?_⟩
  · intro cache path t
    rw [up_to_date]
    cases h : List.lookup path cache with
    | none => simp
    | some entry =>
      simp only [Option.some.injEq, beq_iff_eq]
      exact ⟨fun hh => hh ▸ rfl, fun hh => hh.symm⟩
  · intro q hq
    have hbe : (q == "/a/lib.so") = false := beq_eq_false_iff_ne.mpr hq
    simp [up_to_date, List.lookup, hbe]

/-- Witness for C9's quantified conjuncts at concrete inputs. -/
theorem up_to_date_roundtrip_witness :
    (up_to_date [("/a/lib.so", 100)] "/a/lib.so" 100 = true ↔
      List.lookup "/a/lib.so" [(("/a/lib.so" : String), (100 : Int))] =
        some 100) ∧
    up_to_date [("/a/lib.so", 100)] "/b/lib.so" 100 = false :=
  ⟨(up_to_date_roundtrip.1 [("/a/lib.so", 100)] "/a/lib.so" 100),
    up_to_date_roundtrip.2.2.2.2 "/b/lib.so" (by decide)⟩

/-! ## Claim C10: skip outcomes are non-errors and get recorded -/

/-- Every skip outcome of `auto_patchelf_file` is `Ok` with an empty
outcome list. -/
theorem result_of_skip (o : PatchOutcome) (h : o.isSkip = true) :
    o.result = .ok [] := by
  cases o <;> first
    | rfl
    | simp [PatchOutcome.isSkip] at h

/-- Overwriting the recorded time of a present key makes lookup return
the new time. -/
theorem lookup_map_overwrite (p : String) (t : Int) :
    ∀ m : StateCache, (List.lookup p m).isSome = true →
      List.lookup p
        (m.map fun kv => if kv.1 == p then (kv.1, t) else kv) = some t
  | [], h => by simp [List.lookup] at h
  | (k, v) :: m, h => by
    by_cases hk : p = k
    · subst hk
      rw [List.map_cons, if_pos (beq_self_eq_true p)]
      rw [List.lookup]
      simp
    · have hbe : (p == k) = false := beq_eq_false_iff_ne.mpr hk
      have hbe' : (k == p) = false :=
        beq_eq_false_iff_ne.mpr (Ne.symm hk)
      rw [List.lookup, hbe] at h
      rw [List.map_cons, if_neg (by simp [hbe'])]
      rw [List.lookup, hbe]
      exact lookup_map_overwrite p t m h

/-- Lookup skips a block that does not contain the key. -/
theorem lookup_append_of_none (p : String) :
    ∀ (m l : StateCache), List.lookup p m = none →
      List.lookup p (m ++ l) = List.lookup p l
  | [], l, _ => rfl
  | (k, v) :: m, l, h => by
    by_cases hk : p = k
    · subst hk
      rw [List.lookup] at h
      simp at h
    · have hbe : (p == k) = false := beq_eq_false_iff_ne.mpr hk
      rw [List.lookup, hbe] at h
      rw [List.cons_append, List.lookup, hbe]
      exact lookup_append_of_none p m l h

/-- After `update`, the path's recorded time is the new one. -/
theorem lookup_updateState (m : StateCache) (p : String) (t : Int) :
    List.lookup p (updateState m p t) = some t := by
  rw [updateState]
  split
  · exact lookup_map_overwrite p t m (by assumption)
  · rename_i hnone
    rw [lookup_append_of_none p m [(p, t)]
      (Option.not_isSome_iff_eq_none.mp hnone)]
    simp [List.lookup]

/-- **C10**: a pre-filtered file whose processing hits any skip condition
(parse failure, static executable, segment check, architecture or OS-ABI
mismatch) yields `Ok` with an empty outcome list; the walk then records
its modification time, and — the file being untouched — a second walk
stops at the incremental-state lookup without re-examining it. -/
theorem skip_outcomes_recorded (σ : List String → List String) (env : Env)
    (args : PatchConfig) (cacheResult : Except String SonameCache)
    (interp : ElfDesc) (libcLib : String) (state : StateCache)
    (f : WalkFile)
    (h1 : f.isSymlink = false) (h2 : f.isRegularFile = true)
    (h3 : f.magic = [0x7f, 0x45, 0x4c, 0x46])
    (h4 : up_to_date state f.cachePath f.mtime = false)
    (h5 : (autoPatchelfFile σ env args f.path cacheResult interp libcLib
      f.parsed).isSkip = true)
    (h6 : f.mtimeAfter = f.mtime) :
    (autoPatchelfFile σ env args f.path cacheResult interp libcLib
      f.parsed).result = .ok [] ∧
    processFile σ env args cacheResult interp libcLib state f =
      (updateState state f.cachePath f.mtime, .processedOk []) ∧
    processFile σ env args cacheResult interp libcLib
      (updateState state f.cachePath f.mtime) f =
      (updateState state f.cachePath f.mtime, .upToDate) := by
  have hres := result_of_skip _ h5
  have hupd : up_to_date (updateState state f.cachePath f.mtime)
      f.cachePath f.mtime = true := by
    rw [up_to_date, lookup_updateState]
    simp
  refine ⟨hres, ?_, ?_⟩
  · rw [processFile, if_neg (by simp [h1, h2]), if_neg (by simp [h3]),
      if_neg (by simp [h4]), hres, h6]
  · rw [processFile, if_neg (by simp [h1, h2]), if_neg (by simp [h3]),
      if_pos hupd]

/-- Witness for C10: a regular ELF-magic file whose bytes fail to parse,
at modification time 100, is recorded and skipped on the second pass. -/
theorem skip_outcomes_recorded_witness :
    ((autoPatchelfFile id ⟨fun _ => false, true⟩ ⟨[], [], [], false⟩
        "/r/a.so" (.ok []) ⟨62, 0, 2, [3], [], []⟩ "/libc"
        none).isSkip = true) ∧
    processFile id ⟨fun _ => false, true⟩ ⟨[], [], [], false⟩ (.ok [])
        ⟨62, 0, 2, [3], [], []⟩ "/libc" []
        ⟨"/r/a.so", "a.so", false, true, [0x7f, 0x45, 0x4c, 0x46],
          100, 100, none⟩ =
      (updateState [] "a.so" 100, .processedOk []) :=
  ⟨by decide,
    (skip_outcomes_recorded id ⟨fun _ => false, true⟩ ⟨[], [], [], false⟩
      (.ok []) ⟨62, 0, 2, [3], [], []⟩ "/libc" []
      ⟨"/r/a.so", "a.so", false, true, [0x7f, 0x45, 0x4c, 0x46],
        100, 100, none⟩
      rfl rfl rfl (by decide) (by decide) rfl).2.1⟩

/-! ## Claim C7: cache population under cyclic runpaths -/

/-- The per-directory glob fold never changes the visited set. -/
theorem scanLib_foldl_cached_paths (libs : List LibFile) :
    ∀ acc : CacheState × List String,
      ((libs.foldl scanLib acc).1).cached_paths = acc.1.cached_paths := by
  induction libs with
  | nil => intro acc; rfl
  | cons lib libs ih =>
    intro acc
    rw [List.foldl_cons, ih]
    rw [scanLib]
    split <;> rfl

/-- A `populate_cache` run started from a duplicate-free visited set
keeps it duplicate-free: each directory is scanned at most once. -/
theorem populateGo_nodup (fs : CacheFS) :
    ∀ (fuel : Nat) (queue : List String) (st final : CacheState),
      st.cached_paths.Nodup → populateGo fs fuel queue st = some final →
      final.cached_paths.Nodup
  | 0, _, _, _, _, h => by simp [populateGo] at h
  | fuel + 1, [], st, final, hnd, h => by
    rw [populateGo] at h
    exact (Option.some.inj h) ▸ hnd
  | fuel + 1, d :: rest, st, final, hnd, h => by
    rw [populateGo] at h
    split at h
    · exact populateGo_nodup fs fuel rest st final hnd h
    · rename_i hd
      refine populateGo_nodup fs fuel _ _ final ?_ h
      rw [scanLib_foldl_cached_paths]
      exact List.nodup_cons.mpr ⟨hd, hnd⟩

/-- **C7**: population scans each directory at most once (the visited
set stays duplicate-free), and terminates on a runpath cycle — a library
in `dir1` naming `dir2` and a library in `dir2` naming `dir1` — with
both directories scanned exactly once. -/
theorem populate_cache_cycle :
    (∀ (fs : CacheFS) (fuel : Nat) (queue : List String)
        (st final : CacheState), st.cached_paths.Nodup →
      populateGo fs fuel queue st = some final →
      final.cached_paths.Nodup) ∧
    (∀ (dir1 dir2 : String) (l1 l2 : LibFile), dir1 ≠ dir2 →
      l1.parseOk = true → l2.parseOk = true →
      keptRunpath l1 = [dir2] → keptRunpath l2 = [dir1] →
      (populateGo [(dir1, [l1]), (dir2, [l2])] 5 [dir1, dir2]
          ⟨[], []⟩).map CacheState.cached_paths = some [dir2, dir1] ∧
      [dir2, dir1].count dir1 = 1 ∧ [dir2, dir1].count dir2 = 1) := by
  refine ⟨fun fs => populateGo_nodup fs, ?_⟩
  intro dir1 dir2 l1 l2 hne hp1 hp2 hk1 hk2
  have e12 : (dir1 == dir2) = false := beq_eq_false_iff_ne.mpr hne
  have e21 : (dir2 == dir1) = false :=
    beq_eq_false_iff_ne.mpr (Ne.symm hne)
  refine ⟨?_, ?_, ?_⟩
  · simp [populateGo, globDir, List.lookup, scanLib, hp1, hp2, hk1, hk2,
      e12, e21, hne, Ne.symm hne]
  · simp [List.count_cons, e12, e21]
  · simp [List.count_cons, e12, e21]

/-- Witness for C7 with concrete directories and libraries forming the
two-directory runpath cycle. -/
theorem populate_cache_cycle_witness :
    (populateGo [("/d1", [⟨"a.so", "/d1", 62, 0, ["/d2"], true⟩]),
        ("/d2", [⟨"b.so", "/d2", 62, 0, ["/d1"], true⟩])] 5
        ["/d1", "/d2"] ⟨[], []⟩).map CacheState.cached_paths =
      some ["/d2", "/d1"] ∧
    (["/d2", "/d1"] : List String).count "/d1" = 1 ∧
    (["/d2", "/d1"] : List String).count "/d2" = 1 :=
  populate_cache_cycle.2 "/d1" "/d2"
    ⟨"a.so", "/d1", 62, 0, ["/d2"], true⟩
    ⟨"b.so", "/d2", 62, 0, ["/d1"], true⟩
    (by decide) rfl rfl (by decide) (by decide)

/-- Witness for C8 on a concrete cache with two providers where the first
is incompatible and the second compatible. -/
theorem find_dependency_spec_witness :
    List.lookup ("libz.so.1", 62)
        ([((("libz.so.1" : String), (62 : Nat)),
            [(("/d1" : String), (9 : Nat)), (("/d2" : String), (3 : Nat))])] :
          SonameCache) =
      some [(("/d1" : String), (9 : Nat)), (("/d2" : String), (3 : Nat))] ∧
    find_dependency
        ([((("libz.so.1" : String), (62 : Nat)),
            [(("/d1" : String), (9 : Nat)), (("/d2" : String), (3 : Nat))])] :
          SonameCache) "libz.so.1" 62 3 = some "/d2" :=
  ⟨by decide,
    ((find_dependency_spec
        ([((("libz.so.1" : String), (62 : Nat)),
            [(("/d1" : String), (9 : Nat)), (("/d2" : String), (3 : Nat))])] :
          SonameCache) "libz.so.1" 62 3).2
        [(("/d1" : String), (9 : Nat)), (("/d2" : String), (3 : Nat))]
        (by decide)).2.2.1
      ⟨1, by decide⟩ (by decide) (by decide)⟩

end AutoPatchelf
